import Mathlib

/-!
Verification of the Metrics Time-Series Store and Analytics Engine of the
python_monitor repository.

The store (database/metrics_db.py, class MetricsDatabase) is a SQLite table
  metrics(id INTEGER PRIMARY KEY AUTOINCREMENT, timestamp DATETIME, hostname,
          metric_type, metric_data, status, data_source)
modelled as a list of rows plus the AUTOINCREMENT sequence counter (SQLite with
the AUTOINCREMENT keyword assigns each new row the value of the per-table
sequence plus one, where the sequence records the largest id ever assigned, so
ids are never reused even after deletes).  Timestamps are ISO-8601 UTC strings
produced by datetime.utcnow().isoformat(); their lexicographic order coincides
with chronological order, and SQLite compares the stored TEXT byte-wise, so a
timestamp is modelled as an instant in a linear order (a natural number).

The analyzer (analytics/analyzer.py, class MetricsAnalyzer) computes over
Python floats; it is modelled over the rationals, with exact arithmetic.
Python's round(x, 2) is modelled as decimal round-half-to-even.  The
z-score comparison abs(value - mean) / stdev > threshold, where
stdev = sqrt(sampleVariance), is encoded without square roots by the
equivalent rational comparison (threshold < 0 or threshold^2 * variance <
(value - mean)^2); the equivalence with the real-valued formulation is proved
below (zExceeds_iff_real).

Python values that can appear in a JSON-decoded payload are modelled by the
inductive type PVal; isinstance(value, (int, float)) accepts bool as well,
since bool is a subtype of int in Python, and float(True) = 1.0,
float(False) = 0.0.
-/

namespace PyMonitor

/-- A JSON-decodable Python value (payload entries are of this shape). -/
inductive PVal where
  | vNone : PVal
  | vBool (b : Bool) : PVal
  | vInt (n : Int) : PVal
  | vFloat (q : ℚ) : PVal
  | vStr (s : String) : PVal
  | vList (items : List PVal) : PVal
  | vDict (entries : List (String × PVal)) : PVal

/-! ## Analyzer: analytics/analyzer.py, class MetricsAnalyzer -/

/-- Arithmetic mean sum(l) / len(l) (Python statistics.mean on a nonempty
list; junk value 0 on the empty list, which every caller guards against). -/
def mean (l : List ℚ) : ℚ := l.sum / l.length

/-- The list of window means computed by the loop of calculate_moving_average:
for i in range(len(values) - window_size + 1), the mean of
values[i : i + window_size], i.e. sum(window) / window_size. -/
def movingAverages (values : List ℚ) (window_size : ℕ) : List ℚ :=
  (List.range (values.length - window_size + 1)).map
    (fun i => ((values.drop i).take window_size).sum / (window_size : ℚ))

/-- calculate_moving_average(values, window_size).
If len(values) < window_size the input is returned unchanged.  Otherwise the
loop runs at least once; with window_size = 0 the division
sum(window) / window_size raises ZeroDivisionError, modelled as none. -/
def calculate_moving_average (values : List ℚ) (window_size : ℕ) :
    Option (List ℚ) :=
  if values.length < window_size then some values
  else if window_size = 0 then none
  else some (movingAverages values window_size)

/-- x_mean = (n - 1) / 2, the mean of the indices 0 .. n-1. -/
def xMean (n : ℕ) : ℚ := ((n : ℚ) - 1) / 2

/-- numerator = sum((i - x_mean) * (values[i] - y_mean) for i in range(n)). -/
def regressionNumerator (values : List ℚ) : ℚ :=
  ((List.range values.length).map
    (fun (i : ℕ) => ((i : ℚ) - xMean values.length) *
      (values.getD i 0 - mean values))).sum

/-- denominator = sum((i - x_mean) ** 2 for i in range(n)). -/
def regressionDenominator (n : ℕ) : ℚ :=
  ((List.range n).map (fun (i : ℕ) => ((i : ℚ) - xMean n) ^ 2)).sum

/-- detect_trend(values, threshold).  The Python default threshold is 0.1. -/
def detect_trend (values : List ℚ) (threshold : ℚ) : String :=
  if values.length < 2 then "stable"
  else
    let y_mean := mean values
    let numerator := regressionNumerator values
    let denominator := regressionDenominator values.length
    if denominator = 0 then "stable"
    else
      let slope := numerator / denominator
      let change_rate := if y_mean ≠ 0 then |slope / y_mean| else 0
      if change_rate < threshold then "stable"
      else if slope > 0 then "increasing"
      else "decreasing"

/-- Sample variance sum((v - mean)^2) / (n - 1); statistics.stdev is its
square root.  Callers guard n >= 3, so the denominator is positive there. -/
def sampleVariance (values : List ℚ) : ℚ :=
  (values.map (fun v => (v - mean values) ^ 2)).sum / ((values.length : ℚ) - 1)

/-- The comparison abs(dev) / stdev > t of detect_anomalies, where
stdev = sqrt(var) > 0, encoded without square roots: it holds iff t < 0, or
t >= 0 and t^2 * var < dev^2.  The equivalence with the real-valued
formulation is proved in zExceeds_iff_real. -/
def zExceeds (t dev var : ℚ) : Bool :=
  decide (t < 0) || (decide (0 ≤ t) && decide (t ^ 2 * var < dev ^ 2))

/-- detect_anomalies(values, std_threshold).  The Python default threshold is
2.0.  Returns [] when len(values) < 3 or when stdev == 0 (equivalently, when
the sample variance is 0); the try/except around the body can only fire via
statistics.stdev on lists of length < 2, which the length guard excludes. -/
def detect_anomalies (values : List ℚ) (std_threshold : ℚ) : List ℕ :=
  if values.length < 3 then []
  else
    let m := mean values
    let var := sampleVariance values
    if var = 0 then []
    else (List.range values.length).filter
      (fun i => zExceeds std_threshold (values.getD i 0 - m) var)

/-- Timestamp-ascending comparison used to model ORDER BY timestamp ASC and
sorted(values) below. -/
def ratLE (a b : ℚ) : Prop := a ≤ b

instance : DecidableRel ratLE := fun a b => inferInstanceAs (Decidable (a ≤ b))

instance : IsTotal ℚ ratLE := ⟨fun a b => le_total a b⟩

instance : IsTrans ℚ ratLE := ⟨fun _ _ _ h h' => le_trans h h'⟩

instance : Std.Antisymm (fun (a b : ℚ) => a ≤ b) :=
  ⟨fun h h' => le_antisymm h h'⟩

/-- sorted(values): Python's stable ascending sort, modelled by insertion
sort (only the resulting order matters to the code). -/
def pySorted (values : List ℚ) : List ℚ := List.insertionSort ratLE values

/-- statistics.median(values): sort, then take the middle element (odd
length) or the mean of the two middle elements (even length). -/
def pyMedian (values : List ℚ) : ℚ :=
  let s := pySorted values
  let n := values.length
  if n % 2 = 1 then s.getD (n / 2) 0
  else (s.getD (n / 2 - 1) 0 + s.getD (n / 2) 0) / 2

/-- _percentile(sorted_values, percentile): index = (len - 1) * p / 100,
lower = int(index) (truncation, equal to floor since index >= 0),
upper = lower + 1; return sorted_values[lower] when upper is out of range,
else interpolate linearly with weight = index - lower. -/
def percentileAt (sorted_values : List ℚ) (percentile : ℕ) : ℚ :=
  if sorted_values.isEmpty then 0
  else
    let index : ℚ := ((sorted_values.length : ℚ) - 1) * percentile / 100
    let lower : ℕ := index.floor.toNat
    let upper : ℕ := lower + 1
    if sorted_values.length ≤ upper then sorted_values.getD lower 0
    else
      let weight : ℚ := index - lower
      sorted_values.getD lower 0 * (1 - weight) +
        sorted_values.getD upper 0 * weight

/-- The record returned by calculate_percentiles on a nonempty list. -/
structure PercentileStats where
  min : ℚ
  max : ℚ
  mean : ℚ
  median : ℚ
  p25 : ℚ
  p75 : ℚ
  p90 : ℚ
  p95 : ℚ
  p99 : ℚ
deriving DecidableEq

/-- The field values calculate_percentiles computes on a nonempty list:
min(values), max(values), statistics.mean, statistics.median, and
_percentile of the sorted list at 25, 75, 90, 95, 99. -/
def percentileStats (values : List ℚ) : PercentileStats :=
  let sorted_values := pySorted values
  { min := (values.min?).getD 0
    max := (values.max?).getD 0
    mean := mean values
    median := pyMedian values
    p25 := percentileAt sorted_values 25
    p75 := percentileAt sorted_values 75
    p90 := percentileAt sorted_values 90
    p95 := percentileAt sorted_values 95
    p99 := percentileAt sorted_values 99 }

/-- calculate_percentiles(values): the empty dict on empty input (modelled as
none), otherwise the statistics record. -/
def calculate_percentiles (values : List ℚ) : Option PercentileStats :=
  if values.isEmpty then none else some (percentileStats values)

/-- float(value) for a value accepted by isinstance(value, (int, float)):
bool is a subtype of int in Python, so booleans pass the check and convert to
1.0 / 0.0; str, None, lists and dicts are rejected. -/
def pyFloatOf (v : PVal) : Option ℚ :=
  match v with
  | PVal.vBool b => some (if b then 1 else 0)
  | PVal.vInt n => some (n : ℚ)
  | PVal.vFloat q => some q
  | _ => none

/-- The value extracted from one record by analyze_metric_history:
data = record.get("metric_data", {}); if data is a dict containing
metric_key whose value is numeric, that value as a float, else nothing. -/
def extractValue (record : List (String × PVal)) (metric_key : String) :
    Option ℚ :=
  match (record.lookup ("metric_data")).getD (PVal.vDict []) with
  | PVal.vDict entries => (entries.lookup metric_key).bind pyFloatOf
  | _ => none

/-- The value sequence extracted by the loop of analyze_metric_history. -/
def extractValues (metric_data_list : List (List (String × PVal)))
    (metric_key : String) : List ℚ :=
  metric_data_list.filterMap (fun record => extractValue record metric_key)

/-- Python l[-n:]: the last n elements (the whole list when it is shorter). -/
def lastN (n : ℕ) (l : List ℚ) : List ℚ := l.drop (l.length - n)

/-- The result dict of analyze_metric_history: either
\x7b"error": "No valid data points"\x7d or the analysis record. -/
inductive AnalysisResult where
  | analysisError (msg : String) : AnalysisResult
  | analysisOk (data_points : ℕ) (statistics : PercentileStats)
      (trend : String) (anomalies_count : ℕ) (moving_avg_5 : List ℚ) :
      AnalysisResult
deriving DecidableEq

/-- analyze_metric_history(metric_data, metric_key).  Defaults used by the
calls inside: detect_trend threshold 0.1, detect_anomalies threshold 2.0,
moving-average window 5.  In the branch len(values) >= 5 the call
calculate_moving_average(values, 5) returns the window means (the length
guard inside it fails), so the means list is used directly here.  No
statement in the body can raise, so the surrounding try/except is dead. -/
def analyze_metric_history (metric_data_list : List (List (String × PVal)))
    (metric_key : String) : AnalysisResult :=
  let values := extractValues metric_data_list metric_key
  if values.isEmpty then AnalysisResult.analysisError ("No valid data points")
  else
    AnalysisResult.analysisOk values.length (percentileStats values)
      (detect_trend values (1 / 10))
      (detect_anomalies values 2).length
      (if 5 ≤ values.length then lastN 5 (movingAverages values 5)
       else values)

/-- Python round(x) (no digits): round half to even on the exact rational. -/
def pyRoundHalfEven (x : ℚ) : ℤ :=
  let f := ⌊x⌋
  let frac := x - f
  if frac < 1 / 2 then f
  else if 1 / 2 < frac then f + 1
  else if f % 2 = 0 then f else f + 1

/-- Python round(x, 2): round to two decimal places, half to even. -/
def pyRound2 (x : ℚ) : ℚ := (pyRoundHalfEven (100 * x) : ℚ) / 100

/-- predict_next_value(values): none for fewer than 2 values; otherwise fit
the least-squares line over the last (at most) 10 values; if the regression
denominator is 0 return the last value unchanged, else evaluate the line one
step past the window and round to 2 decimal places. -/
def predict_next_value (values : List ℚ) : Option ℚ :=
  if values.length < 2 then none
  else
    let recent_values := lastN 10 values
    let n := recent_values.length
    let numerator := regressionNumerator recent_values
    let denominator := regressionDenominator n
    if denominator = 0 then some (recent_values.getLastD 0)
    else
      let slope := numerator / denominator
      let intercept := mean recent_values - slope * xMean n
      some (pyRound2 (slope * n + intercept))

/-! ## Store: database/metrics_db.py, class MetricsDatabase

A timestamp is an instant on the UTC timeline: the ISO-8601 strings written
by insert_metrics compare lexicographically exactly as the instants they
denote compare chronologically, and SQLite compares the TEXT column
byte-wise, so the model uses a linearly ordered instant. -/

abbrev Timestamp := ℕ

/-- One row of the metrics table.  metric_data is stored as json.dumps text
and parsed back with json.loads on read; the round trip is the identity on
JSON-representable payloads, so the model stores the value itself. -/
structure MetricRow where
  id : ℕ
  timestamp : Timestamp
  hostname : String
  metric_type : String
  metric_data : PVal
  status : String
  data_source : String

/-- The database state: the rows of the metrics table plus the SQLite
AUTOINCREMENT sequence for it (the largest id ever assigned; new rows get
seq + 1, and the sequence never goes backwards, even across DELETEs). -/
structure MetricsDatabase where
  rows : List MetricRow
  seq : ℕ

/-- A freshly initialised database (_init_database creates an empty table). -/
def emptyDatabase : MetricsDatabase := { rows := [], seq := 0 }

/-- insert_metrics(hostname, metric_type, metric_data, status, data_source):
appends one row stamped with the current time and returns the new row id
(cursor.lastrowid).  The clock reading datetime.utcnow() is external input,
passed here as the now argument. -/
def insert_metrics (db : MetricsDatabase) (now : Timestamp)
    (hostname metric_type : String) (metric_data : PVal)
    (status data_source : String) : MetricsDatabase × ℕ :=
  let newId := db.seq + 1
  let row : MetricRow :=
    { id := newId
      timestamp := now
      hostname := hostname
      metric_type := metric_type
      metric_data := metric_data
      status := status
      data_source := data_source }
  ({ rows := db.rows ++ [row], seq := newId }, newId)

/-- The WHERE clause of get_metrics_range: timestamp BETWEEN start AND end
(inclusive on both ends) and, when a filter is supplied, metric_type = it. -/
def rangeMatches (start_time end_time : Timestamp) (metric_type : Option String)
    (r : MetricRow) : Bool :=
  decide (start_time ≤ r.timestamp) && decide (r.timestamp ≤ end_time) &&
    (match metric_type with
     | some t => r.metric_type == t
     | none => true)

/-- Row comparison by timestamp, modelling ORDER BY timestamp ASC. -/
def rowLE (a b : MetricRow) : Prop := a.timestamp ≤ b.timestamp

instance : DecidableRel rowLE :=
  fun a b => inferInstanceAs (Decidable (a.timestamp ≤ b.timestamp))

instance : IsTotal MetricRow rowLE := ⟨fun a b => le_total a.timestamp b.timestamp⟩

instance : IsTrans MetricRow rowLE := ⟨fun _ _ _ h h' => le_trans h h'⟩

/-- get_metrics_range(start_time, end_time, metric_type): the rows whose
timestamp lies BETWEEN the bounds (and whose metric_type equals the filter
when one is given), ORDER BY timestamp ASC. -/
def get_metrics_range (db : MetricsDatabase)
    (start_time end_time : Timestamp) (metric_type : Option String) :
    List MetricRow :=
  List.insertionSort rowLE
    (db.rows.filter (rangeMatches start_time end_time metric_type))

/-- cleanup_old_records: DELETE FROM metrics WHERE timestamp < cutoff, where
cutoff = datetime.utcnow() - timedelta(days=retention_days) is computed
outside the store and passed here as an instant; returns cursor.rowcount,
the number of rows deleted. -/
def cleanup_old_records (db : MetricsDatabase) (cutoff : Timestamp) :
    MetricsDatabase × ℕ :=
  let deleted := db.rows.filter (fun r => decide (r.timestamp < cutoff))
  ({ rows := db.rows.filter (fun r => decide (¬ r.timestamp < cutoff))
     seq := db.seq },
   deleted.length)

/-- The dict returned by get_database_stats (db_path omitted: it is a
constructor argument echoed back unchanged, with no bearing on the data). -/
structure DatabaseStats where
  total_records : ℕ
  by_type : String → ℕ
  oldest_record : Option Timestamp
  newest_record : Option Timestamp

/-- get_database_stats(): COUNT(*), the per-type counts of the GROUP BY
query, and MIN/MAX timestamp (NULL on an empty table, modelled as none). -/
def get_database_stats (db : MetricsDatabase) : DatabaseStats :=
  { total_records := db.rows.length
    by_type := fun t => (db.rows.filter (fun r => r.metric_type == t)).length
    oldest_record := (db.rows.map (fun r => r.timestamp)).min?
    newest_record := (db.rows.map (fun r => r.timestamp)).max? }

/-- One store operation of an execution history: an insert (with its clock
reading and arguments) or a retention sweep (with its cutoff instant). -/
inductive StoreOp where
  | opInsert (now : Timestamp) (hostname metric_type : String)
      (metric_data : PVal) (status data_source : String) : StoreOp
  | opCleanup (cutoff : Timestamp) : StoreOp

/-- The database state after one operation. -/
def applyOp (db : MetricsDatabase) : StoreOp → MetricsDatabase
  | StoreOp.opInsert now h mt md st src =>
      (insert_metrics db now h mt md st src).1
  | StoreOp.opCleanup cutoff => (cleanup_old_records db cutoff).1

/-- The database state after a sequence of operations. -/
def runOps (db : MetricsDatabase) : List StoreOp → MetricsDatabase
  | [] => db
  | op :: ops => runOps (applyOp db op) ops

/-- The row ids returned by the insert calls of a history, in call order. -/
def assignedIds (db : MetricsDatabase) : List StoreOp → List ℕ
  | [] => []
  | StoreOp.opInsert now h mt md st src :: ops =>
      (insert_metrics db now h mt md st src).2 ::
        assignedIds (applyOp db (StoreOp.opInsert now h mt md st src)) ops
  | StoreOp.opCleanup cutoff :: ops =>
      assignedIds (applyOp db (StoreOp.opCleanup cutoff)) ops

/-- The sum of the deletion counts returned by the cleanup calls of a
history, as executed. -/
def cleanedTotal (db : MetricsDatabase) : List StoreOp → ℕ
  | [] => 0
  | StoreOp.opInsert now h mt md st src :: ops =>
      cleanedTotal (applyOp db (StoreOp.opInsert now h mt md st src)) ops
  | StoreOp.opCleanup cutoff :: ops =>
      (cleanup_old_records db cutoff).2 +
        cleanedTotal (applyOp db (StoreOp.opCleanup cutoff)) ops

/-- The number of insert operations in a history. -/
def insertCount : List StoreOp → ℕ
  | [] => 0
  | StoreOp.opInsert _ _ _ _ _ _ :: ops => insertCount ops + 1
  | StoreOp.opCleanup _ :: ops => insertCount ops

end PyMonitor

namespace PyMonitor

/-! ## Helper lemmas -/

theorem length_filter_not_add {α : Type} (p : α → Bool) (l : List α) :
    (l.filter (fun a => !(p a))).length + (l.filter p).length = l.length := by
  induction l with
  | nil => rfl
  | cons a l ih =>
    by_cases h : p a = true <;> simp [List.filter_cons, h] <;> omega

theorem getD_map_range {β : Type} (f : ℕ → β) {i n : ℕ} (h : i < n) (d : β) :
    ((List.range n).map f).getD i d = f i := by
  rw [List.getD_eq_getElem?_getD, List.getElem?_map, List.getElem?_range h]
  rfl

theorem xMean_pos {n : ℕ} (hn : 2 ≤ n) : 0 < xMean n := by
  have h2 : (2 : ℚ) ≤ (n : ℚ) := by exact_mod_cast hn
  unfold xMean
  have : (0 : ℚ) < (n : ℚ) - 1 := by linarith
  positivity

theorem regressionDenominator_pos {n : ℕ} (hn : 2 ≤ n) :
    0 < regressionDenominator n := by
  have hmem : (((0 : ℕ) : ℚ) - xMean n) ^ 2 ∈
      (List.range n).map (fun (i : ℕ) => ((i : ℚ) - xMean n) ^ 2) :=
    List.mem_map_of_mem _ (List.mem_range.mpr (by omega))
  have hterm : (0 : ℚ) < (((0 : ℕ) : ℚ) - xMean n) ^ 2 := by
    have heq : (((0 : ℕ) : ℚ) - xMean n) ^ 2 = (xMean n) ^ 2 := by
      push_cast
      ring
    rw [heq]
    exact pow_pos (xMean_pos hn) 2
  have hle := List.single_le_sum
    (l := (List.range n).map (fun (i : ℕ) => ((i : ℚ) - xMean n) ^ 2))
    (by
      intro x hx
      obtain ⟨i, _, rfl⟩ := List.mem_map.mp hx
      exact sq_nonneg _)
    _ hmem
  unfold regressionDenominator
  exact lt_of_lt_of_le hterm hle

theorem regressionDenominator_eq_zero {n : ℕ}
    (h : regressionDenominator n = 0) : n < 2 := by
  by_contra hn
  exact absurd h (ne_of_gt (regressionDenominator_pos (by omega)))

theorem sampleVariance_nonneg {values : List ℚ} (h : 2 ≤ values.length) :
    0 ≤ sampleVariance values := by
  unfold sampleVariance
  apply div_nonneg
  · apply List.sum_nonneg
    intro x hx
    obtain ⟨v, _, rfl⟩ := List.mem_map.mp hx
    exact sq_nonneg _
  · have h2 : (2 : ℚ) ≤ (values.length : ℚ) := by exact_mod_cast h
    linarith

theorem zExceeds_iff_real {t dev var : ℚ} (hvar : 0 < var) :
    zExceeds t dev var = true ↔
      (t : ℝ) < |(dev : ℝ)| / Real.sqrt (var : ℝ) := by
  have hvarR : (0 : ℝ) < (var : ℝ) := by exact_mod_cast hvar
  have hs : 0 < Real.sqrt (var : ℝ) := Real.sqrt_pos.mpr hvarR
  rw [lt_div_iff₀ hs]
  have hunf : zExceeds t dev var = true ↔
      t < 0 ∨ (0 ≤ t ∧ t ^ 2 * var < dev ^ 2) := by
    simp [zExceeds]
  rw [hunf]
  rcases lt_or_le t 0 with ht | ht
  · have htR : (t : ℝ) < 0 := by exact_mod_cast ht
    constructor
    · intro _
      calc (t : ℝ) * Real.sqrt (var : ℝ) < 0 := mul_neg_of_neg_of_pos htR hs
        _ ≤ |(dev : ℝ)| := abs_nonneg _
    · intro _
      exact Or.inl ht
  · have htR : (0 : ℝ) ≤ (t : ℝ) := by exact_mod_cast ht
    have hiff : (t : ℝ) * Real.sqrt (var : ℝ) < |(dev : ℝ)| ↔
        t ^ 2 * var < dev ^ 2 := by
      rw [← pow_lt_pow_iff_left₀ (mul_nonneg htR (le_of_lt hs)) (abs_nonneg _)
        (two_ne_zero), mul_pow, Real.sq_sqrt (le_of_lt hvarR), sq_abs]
      constructor
      · intro h
        have : ((t ^ 2 * var : ℚ) : ℝ) < ((dev ^ 2 : ℚ) : ℝ) := by
          push_cast
          exact h
        exact_mod_cast this
      · intro h
        have : ((t ^ 2 * var : ℚ) : ℝ) < ((dev ^ 2 : ℚ) : ℝ) := by
          exact_mod_cast h
        push_cast at this
        exact this
    constructor
    · intro h
      rcases h with h | h
      · exact absurd h (not_lt.mpr ht)
      · exact hiff.mpr h.2
    · intro h
      exact Or.inr ⟨ht, hiff.mp h⟩

theorem window_length {values : List ℚ} {w i : ℕ} (hw : w ≤ values.length)
    (hi : i < values.length - w + 1) :
    ((values.drop i).take w).length = w := by
  simp only [List.length_take, List.length_drop]
  omega

/-! ## Claim theorems -/

/-- C8 counterexample: the claim quantifies over every window w, but for the
in-range window w = 0 (0 ≤ len [1]) the loop body divides by the window size
and Python raises ZeroDivisionError (modelled as none) instead of returning
the claimed sequence of len - w + 1 = 2 window means. -/
theorem moving_average_window_zero_diverges :
    calculate_moving_average [(1 : ℚ)] 0 = none ∧
      0 ≤ ([(1 : ℚ)]).length ∧ ([(1 : ℚ)]).length - 0 + 1 = 2 := by
  refine ⟨?_, by decide, by decide⟩
  norm_num [calculate_moving_average]

/-- C8 (amended): for every list of n values and every window w >= 1, the
moving average returns the input unchanged when w > n, and otherwise the
sequence of arithmetic means of the contiguous length-w sub-windows, in
order, with output length exactly n - w + 1.  (For w = 0, which the claim as
stated also covers via the w <= n branch, the code raises
ZeroDivisionError.) -/
theorem calculate_moving_average_spec (values : List ℚ) (w : ℕ)
    (hw : 1 ≤ w) :
    (values.length < w → calculate_moving_average values w = some values) ∧
    (w ≤ values.length →
      calculate_moving_average values w = some (movingAverages values w) ∧
      (movingAverages values w).length = values.length - w + 1 ∧
      (∀ i, i < values.length - w + 1 →
        (movingAverages values w).getD i 0 =
          mean ((values.drop i).take w))) := by
  constructor
  · intro h
    simp [calculate_moving_average, h]
  · intro h
    have hnotlt : ¬ values.length < w := not_lt.mpr h
    have hw0 : w ≠ 0 := by omega
    refine ⟨by simp [calculate_moving_average, hnotlt, hw0], ?_, ?_⟩
    · simp [movingAverages]
    · intro i hi
      rw [movingAverages, getD_map_range _ hi, mean, window_length h hi]

/-- C8 witness: the amended moving-average claim instantiated on the
six-value list with window 3 (window within range). -/
theorem calculate_moving_average_spec_witness :
    calculate_moving_average [(1 : ℚ), 2, 3, 4, 5, 6] 3 =
      some (movingAverages [(1 : ℚ), 2, 3, 4, 5, 6] 3) ∧
    (movingAverages [(1 : ℚ), 2, 3, 4, 5, 6] 3).length =
      ([(1 : ℚ), 2, 3, 4, 5, 6]).length - 3 + 1 ∧
    (∀ i, i < ([(1 : ℚ), 2, 3, 4, 5, 6]).length - 3 + 1 →
      (movingAverages [(1 : ℚ), 2, 3, 4, 5, 6] 3).getD i 0 =
        mean (([(1 : ℚ), 2, 3, 4, 5, 6].drop i).take 3)) :=
  (calculate_moving_average_spec [(1 : ℚ), 2, 3, 4, 5, 6] 3 (by decide)).2
    (by decide)

/-- C4: detect_trend returns "stable" when the list has fewer than 2
elements, when the regression denominator is 0, or when the change rate
(defined as the absolute slope over the mean when the mean is nonzero, else
0) is below the threshold; otherwise "increasing" for positive slope and
"decreasing" for negative slope; and the three spec examples hold at the
default threshold 0.1. -/
theorem detect_trend_spec (values : List ℚ) (threshold : ℚ) :
    (values.length < 2 → detect_trend values threshold = "stable") ∧
    (regressionDenominator values.length = 0 →
      detect_trend values threshold = "stable") ∧
    (2 ≤ values.length →
      ((if mean values ≠ 0
          then |(regressionNumerator values /
            regressionDenominator values.length) / mean values|
          else 0) < threshold → detect_trend values threshold = "stable") ∧
      (¬ (if mean values ≠ 0
          then |(regressionNumerator values /
            regressionDenominator values.length) / mean values|
          else 0) < threshold →
        0 < regressionNumerator values / regressionDenominator values.length →
        detect_trend values threshold = "increasing") ∧
      (¬ (if mean values ≠ 0
          then |(regressionNumerator values /
            regressionDenominator values.length) / mean values|
          else 0) < threshold →
        regressionNumerator values / regressionDenominator values.length < 0 →
        detect_trend values threshold = "decreasing")) ∧
    detect_trend [1, 2, 3, 4, 5] (1 / 10) = "increasing" ∧
    detect_trend [(5 : ℚ), 5, 5, 5, 5] (1 / 10) = "stable" ∧
    detect_trend [(5 : ℚ), 4, 3, 2, 1] (1 / 10) = "decreasing" := by
  refine ⟨?_, ?_, ?_, ?_, ?_, ?_⟩
  · intro h
    simp [detect_trend, h]
  · intro h
    have hlt : values.length < 2 := regressionDenominator_eq_zero h
    simp [detect_trend, hlt]
  · intro h2
    have hd : regressionDenominator values.length ≠ 0 :=
      ne_of_gt (regressionDenominator_pos h2)
    simp only [detect_trend]
    rw [if_neg (by omega : ¬ values.length < 2), if_neg hd]
    refine ⟨fun hc => ?_, fun hc hs => ?_, fun hc hs => ?_⟩
    · rw [if_pos hc]
    · rw [if_neg hc, if_pos hs]
    · rw [if_neg hc, if_neg (not_lt.mpr (le_of_lt hs))]
  · norm_num [detect_trend, regressionNumerator, regressionDenominator,
      xMean, mean, List.range_succ, abs_of_pos, abs_of_neg]
  · norm_num [detect_trend, regressionNumerator, regressionDenominator,
      xMean, mean, List.range_succ, abs_of_pos, abs_of_neg]
  · norm_num [detect_trend, regressionNumerator, regressionDenominator,
      xMean, mean, List.range_succ, abs_of_pos, abs_of_neg]

/-- C4 witness: the trend claim instantiated on the empty list (the
fewer-than-two-elements branch). -/
theorem detect_trend_spec_witness :
    detect_trend ([] : List ℚ) (1 / 10) = "stable" :=
  (detect_trend_spec ([] : List ℚ) (1 / 10)).1 (by decide)

/-- C6: calculate_percentiles returns an empty result on empty input; on a
nonempty list it returns the minimum, maximum, arithmetic mean and median of
the values, and each percentile p in 25, 75, 90, 95, 99 by linear
interpolation over the sorted values with index (n-1)p/100, lower = floor of
the index and weight = index - lower, clamped to the lower value when
lower + 1 is out of range; the median of [1,2,3,4] is 5/2 and the median of
[1,2,3,4,5] is 3. -/
theorem calculate_percentiles_spec (values : List ℚ) :
    (values = [] → calculate_percentiles values = none) ∧
    (values ≠ [] →
      (pySorted values).Perm values ∧
      List.Sorted ratLE (pySorted values) ∧
      ∃ st, calculate_percentiles values = some st ∧
        st.min ∈ values ∧ (∀ v ∈ values, st.min ≤ v) ∧
        st.max ∈ values ∧ (∀ v ∈ values, v ≤ st.max) ∧
        st.mean = values.sum / values.length ∧
        st.median = (if values.length % 2 = 1
          then (pySorted values).getD (values.length / 2) 0
          else ((pySorted values).getD (values.length / 2 - 1) 0 +
            (pySorted values).getD (values.length / 2) 0) / 2) ∧
        st.p25 = percentileAt (pySorted values) 25 ∧
        st.p75 = percentileAt (pySorted values) 75 ∧
        st.p90 = percentileAt (pySorted values) 90 ∧
        st.p95 = percentileAt (pySorted values) 95 ∧
        st.p99 = percentileAt (pySorted values) 99 ∧
        (∀ p : ℕ,
          percentileAt (pySorted values) p =
            (if values.length ≤
                (((values.length : ℚ) - 1) * p / 100).floor.toNat + 1
             then (pySorted values).getD
                (((values.length : ℚ) - 1) * p / 100).floor.toNat 0
             else (pySorted values).getD
                  (((values.length : ℚ) - 1) * p / 100).floor.toNat 0 *
                  (1 - (((values.length : ℚ) - 1) * p / 100 -
                    (((values.length : ℚ) - 1) * p / 100).floor.toNat)) +
                (pySorted values).getD
                  ((((values.length : ℚ) - 1) * p / 100).floor.toNat + 1) 0 *
                  (((values.length : ℚ) - 1) * p / 100 -
                    (((values.length : ℚ) - 1) * p / 100).floor.toNat)))) ∧
    (∃ st, calculate_percentiles [(1 : ℚ), 2, 3, 4] = some st ∧
      st.median = 5 / 2) ∧
    (∃ st, calculate_percentiles [(1 : ℚ), 2, 3, 4, 5] = some st ∧
      st.median = 3) := by
  refine ⟨?_, ?_, ?_, ?_⟩
  · intro h
    simp [calculate_percentiles, h]
  · intro h
    have hperm : (pySorted values).Perm values :=
      List.perm_insertionSort ratLE values
    have hlen : (pySorted values).length = values.length := hperm.length_eq
    have hne : (pySorted values) ≠ [] := by
      intro hnil
      exact h ((hnil ▸ hperm).symm.eq_nil)
    refine ⟨hperm, List.sorted_insertionSort ratLE values,
      percentileStats values, ?_, ?_, ?_, ?_, ?_, rfl, ?_, rfl, rfl, rfl,
      rfl, rfl, ?_⟩
    · simp [calculate_percentiles, h]
    · obtain ⟨m, hm⟩ : ∃ m, values.min? = some m := by
        cases hmo : values.min? with
        | none => exact absurd (List.min?_eq_none_iff.mp hmo) h
        | some m => exact ⟨m, rfl⟩
      have := (List.min?_eq_some_iff (fun a => le_refl a)
        (fun a b => min_choice a b) (fun a b c => le_min_iff)).mp hm
      simpa [percentileStats, hm] using this.1
    · obtain ⟨m, hm⟩ : ∃ m, values.min? = some m := by
        cases hmo : values.min? with
        | none => exact absurd (List.min?_eq_none_iff.mp hmo) h
        | some m => exact ⟨m, rfl⟩
      have := (List.min?_eq_some_iff (fun a => le_refl a)
        (fun a b => min_choice a b) (fun a b c => le_min_iff)).mp hm
      intro v hv
      simpa [percentileStats, hm] using this.2 v hv
    · obtain ⟨m, hm⟩ : ∃ m, values.max? = some m := by
        cases hmo : values.max? with
        | none => exact absurd (List.max?_eq_none_iff.mp hmo) h
        | some m => exact ⟨m, rfl⟩
      have := (List.max?_eq_some_iff (fun a => le_refl a)
        (fun a b => max_choice a b) (fun a b c => max_le_iff)).mp hm
      simpa [percentileStats, hm] using this.1
    · obtain ⟨m, hm⟩ : ∃ m, values.max? = some m := by
        cases hmo : values.max? with
        | none => exact absurd (List.max?_eq_none_iff.mp hmo) h
        | some m => exact ⟨m, rfl⟩
      have := (List.max?_eq_some_iff (fun a => le_refl a)
        (fun a b => max_choice a b) (fun a b c => max_le_iff)).mp hm
      intro v hv
      simpa [percentileStats, hm] using this.2 v hv
    · simp [percentileStats, pyMedian]
    · intro p
      rw [percentileAt, if_neg (by simp [List.isEmpty_iff, hne]), hlen]
  · refine ⟨percentileStats [(1 : ℚ), 2, 3, 4], by norm_num [calculate_percentiles], ?_⟩
    norm_num [percentileStats, pyMedian, pySorted, List.insertionSort,
      List.orderedInsert, ratLE]
  · refine ⟨percentileStats [(1 : ℚ), 2, 3, 4, 5], by norm_num [calculate_percentiles], ?_⟩
    norm_num [percentileStats, pyMedian, pySorted, List.insertionSort,
      List.orderedInsert, ratLE]

/-- C6 witness: the percentile claim instantiated on the empty list. -/
theorem calculate_percentiles_spec_witness :
    calculate_percentiles ([] : List ℚ) = none :=
  (calculate_percentiles_spec ([] : List ℚ)).1 rfl

/-- C7: predict_next_value returns none for fewer than 2 values; otherwise it
works on the suffix of at most the last 10 values, returns the last value
unchanged when the regression denominator is 0, and otherwise the
least-squares line (the same regression sums used by detect_trend) evaluated
one step past the window, rounded to 2 decimal places;
predict_next_value [1,2,3,4,5] = 6. -/
theorem predict_next_value_spec (values : List ℚ) :
    (values.length < 2 → predict_next_value values = none) ∧
    (2 ≤ values.length →
      (lastN 10 values).length = min values.length 10 ∧
      (lastN 10 values).IsSuffix values ∧
      (regressionDenominator (lastN 10 values).length = 0 →
        predict_next_value values = some ((lastN 10 values).getLastD 0)) ∧
      (regressionDenominator (lastN 10 values).length ≠ 0 →
        predict_next_value values = some (pyRound2
          ((regressionNumerator (lastN 10 values) /
              regressionDenominator (lastN 10 values).length) *
              ((lastN 10 values).length : ℚ) +
            (mean (lastN 10 values) -
              (regressionNumerator (lastN 10 values) /
                regressionDenominator (lastN 10 values).length) *
              xMean (lastN 10 values).length))))) ∧
    predict_next_value [1, 2, 3, 4, 5] = some 6 := by
  refine ⟨?_, ?_, ?_⟩
  · intro h
    simp [predict_next_value, h]
  · intro h2
    refine ⟨?_, ?_, ?_, ?_⟩
    · simp only [lastN, List.length_drop]
      omega
    · exact List.drop_suffix _ _
    · intro hd
      simp only [predict_next_value]
      rw [if_neg (not_lt.mpr h2), if_pos hd]
    · intro hd
      simp only [predict_next_value]
      rw [if_neg (not_lt.mpr h2), if_neg hd]
  · norm_num [predict_next_value, lastN, regressionNumerator,
      regressionDenominator, xMean, mean, List.range_succ, pyRound2,
      pyRoundHalfEven]

/-- C7 witness: the prediction claim instantiated on the empty list. -/
theorem predict_next_value_spec_witness :
    predict_next_value ([] : List ℚ) = none :=
  (predict_next_value_spec ([] : List ℚ)).1 (by decide)

/-- C5 counterexample: the claim asserts anomalies([10,10,10,10,100], 2.0)
flags exactly index 4, but with the sample standard deviation
sqrt(1620) of that list the z-score of 100 is 72 / sqrt(1620), about 1.79,
which is not above 2.0, so the code flags nothing. -/
theorem detect_anomalies_example_flags_nothing :
    detect_anomalies [10, 10, 10, 10, 100] 2 ≠ [4] := by
  norm_num [detect_anomalies, sampleVariance, mean, zExceeds,
    List.range_succ, List.filter]

/-- C5 (amended): detect_anomalies returns [] when the list has fewer than 3
elements or the sample variance (hence the sample standard deviation) is 0;
otherwise it returns, in ascending index order, exactly the indices whose
absolute deviation from the sample mean, divided by the sample standard
deviation, strictly exceeds the threshold.  With the default threshold 2.0,
[10,10,10,10,100] yields [] (index 4 has z-score about 1.79, not above 2)
and [5,5,5,5,5] yields []. -/
theorem detect_anomalies_spec (values : List ℚ) (t : ℚ) :
    (values.length < 3 → detect_anomalies values t = []) ∧
    (sampleVariance values = 0 → detect_anomalies values t = []) ∧
    (3 ≤ values.length → sampleVariance values ≠ 0 →
      List.Pairwise (· < ·) (detect_anomalies values t) ∧
      (∀ i : ℕ, i ∈ detect_anomalies values t ↔ i < values.length ∧
        (t : ℝ) < |((values.getD i 0 - mean values : ℚ) : ℝ)| /
          Real.sqrt ((sampleVariance values : ℚ) : ℝ))) ∧
    detect_anomalies [10, 10, 10, 10, 100] 2 = [] ∧
    detect_anomalies [(5 : ℚ), 5, 5, 5, 5] 2 = [] := by
  refine ⟨?_, ?_, ?_, ?_, ?_⟩
  · intro h
    simp [detect_anomalies, h]
  · intro hv
    by_cases h3 : values.length < 3
    · simp [detect_anomalies, h3]
    · simp [detect_anomalies, h3, hv]
  · intro h3 hvar
    have hpos : 0 < sampleVariance values :=
      lt_of_le_of_ne (sampleVariance_nonneg (by omega)) (Ne.symm hvar)
    simp only [detect_anomalies]
    rw [if_neg (by omega : ¬ values.length < 3), if_neg hvar]
    constructor
    · exact (List.pairwise_lt_range values.length).filter _
    · intro i
      rw [List.mem_filter, List.mem_range]
      exact and_congr_right (fun _ => zExceeds_iff_real hpos)
  · norm_num [detect_anomalies, sampleVariance, mean, zExceeds,
      List.range_succ, List.filter]
  · norm_num [detect_anomalies, sampleVariance, mean, List.range_succ]

/-- C5 witness: the amended anomaly claim instantiated on the empty list at
the default threshold. -/
theorem detect_anomalies_spec_witness :
    detect_anomalies ([] : List ℚ) 2 = [] :=
  (detect_anomalies_spec ([] : List ℚ) 2).1 (by decide)

/-- C9: analyze_metric_history extracts the numeric values at the requested
payload key, skipping records where the key is absent or non-numeric; when
nothing remains it returns the distinguishable error result, otherwise the
analysis record carrying the data-point count, the percentile block, the
trend classification, the anomaly count, and the last five window-5 moving
averages (the raw values when fewer than five are available); every input
yields one of the two structured results. -/
theorem analyze_metric_history_spec
    (records : List (List (String × PVal))) (key : String) :
    (extractValues records key = [] →
      analyze_metric_history records key =
        AnalysisResult.analysisError ("No valid data points")) ∧
    (extractValues records key ≠ [] →
      ∃ ms, calculate_moving_average (extractValues records key) 5 = some ms ∧
        analyze_metric_history records key = AnalysisResult.analysisOk
          (extractValues records key).length
          (percentileStats (extractValues records key))
          (detect_trend (extractValues records key) (1 / 10))
          (detect_anomalies (extractValues records key) 2).length
          (if 5 ≤ (extractValues records key).length
           then lastN 5 ms else extractValues records key)) ∧
    (∀ record rest, extractValue record key = none →
      extractValues (record :: rest) key = extractValues rest key) ∧
    (∀ record rest q, extractValue record key = some q →
      extractValues (record :: rest) key = q :: extractValues rest key) ∧
    (∀ msg a st tr ac ma, AnalysisResult.analysisError msg ≠
      AnalysisResult.analysisOk a st tr ac ma) ∧
    ((∃ msg, analyze_metric_history records key =
        AnalysisResult.analysisError msg) ∨
      (∃ a st tr ac ma, analyze_metric_history records key =
        AnalysisResult.analysisOk a st tr ac ma)) := by
  refine ⟨?_, ?_, ?_, ?_, ?_, ?_⟩
  · intro h
    simp [analyze_metric_history, h]
  · intro h
    have hne : (extractValues records key).isEmpty = false := by
      simp [List.isEmpty_iff, h]
    by_cases h5 : 5 ≤ (extractValues records key).length
    · refine ⟨movingAverages (extractValues records key) 5, ?_, ?_⟩
      · rw [calculate_moving_average, if_neg (not_lt.mpr h5),
          if_neg (by omega)]
      · simp [analyze_metric_history, hne]
    · refine ⟨extractValues records key, ?_, ?_⟩
      · rw [calculate_moving_average, if_pos (by omega)]
      · simp [analyze_metric_history, hne, if_neg h5]
  · intro record rest hnone
    simp [extractValues, List.filterMap_cons, hnone]
  · intro record rest q hsome
    simp [extractValues, List.filterMap_cons, hsome]
  · intro msg a st tr ac ma h
    exact AnalysisResult.noConfusion h
  · by_cases hi : (extractValues records key).isEmpty = true
    · exact Or.inl ⟨"No valid data points", by simp [analyze_metric_history, hi]⟩
    · refine Or.inr ⟨(extractValues records key).length,
        percentileStats (extractValues records key),
        detect_trend (extractValues records key) (1 / 10),
        (detect_anomalies (extractValues records key) 2).length,
        (if 5 ≤ (extractValues records key).length
         then lastN 5 (movingAverages (extractValues records key) 5)
         else extractValues records key), ?_⟩
      simp [analyze_metric_history, hi]

/-- C9 witness: an empty record list yields the error result. -/
theorem analyze_metric_history_spec_witness :
    analyze_metric_history ([] : List (List (String × PVal))) ("cpu") =
      AnalysisResult.analysisError ("No valid data points") :=
  (analyze_metric_history_spec [] ("cpu")).1 rfl

/-- C10: a boolean payload value at the requested key is not skipped as
non-numeric: isinstance(value, (int, float)) accepts it because bool is a
subtype of int, so it contributes float(True) = 1.0 or float(False) = 0.0
to the extracted sequence and is counted among the data points. -/
theorem analyze_counts_bool_payload (key : String) (b : Bool)
    (entries : List (String × PVal))
    (records : List (List (String × PVal))) :
    extractValues
        ([("metric_data", PVal.vDict ((key, PVal.vBool b) :: entries))] ::
          records) key =
      (if b then (1 : ℚ) else 0) :: extractValues records key ∧
    ∃ st tr ac ma,
      analyze_metric_history
          ([("metric_data", PVal.vDict ((key, PVal.vBool b) :: entries))] ::
            records) key =
        AnalysisResult.analysisOk
          ((if b then (1 : ℚ) else 0) :: extractValues records key).length
          st tr ac ma := by
  have h1 : extractValues
      ([("metric_data", PVal.vDict ((key, PVal.vBool b) :: entries))] ::
        records) key =
      (if b then (1 : ℚ) else 0) :: extractValues records key := by
    simp [extractValues, List.filterMap_cons, extractValue, List.lookup,
      pyFloatOf]
  refine ⟨h1, ?_⟩
  simp only [analyze_metric_history]
  rw [h1]
  simp only [List.isEmpty_cons, Bool.false_eq_true, if_false]
  exact ⟨_, _, _, _, rfl⟩

/-! ## Store helper lemmas -/

theorem seq_applyOp_le (db : MetricsDatabase) (op : StoreOp) :
    db.seq ≤ (applyOp db op).seq := by
  cases op with
  | opInsert now h mt md st src =>
    simp [applyOp, insert_metrics]
  | opCleanup c =>
    simp [applyOp, cleanup_old_records]

theorem seq_runOps_le (ops : List StoreOp) :
    ∀ db : MetricsDatabase, db.seq ≤ (runOps db ops).seq := by
  induction ops with
  | nil => intro db; exact le_refl _
  | cons op ops ih =>
    intro db
    exact le_trans (seq_applyOp_le db op) (ih (applyOp db op))

theorem assignedIds_bounds (ops : List StoreOp) :
    ∀ db : MetricsDatabase, ∀ i ∈ assignedIds db ops,
      db.seq < i ∧ i ≤ (runOps db ops).seq := by
  induction ops with
  | nil =>
    intro db i hi
    simp [assignedIds] at hi
  | cons op ops ih =>
    intro db i hi
    cases op with
    | opInsert now h mt md st src =>
      rw [assignedIds] at hi
      rcases List.mem_cons.mp hi with rfl | hmem
      · refine ⟨Nat.lt_succ_self _, ?_⟩
        have hseq : (applyOp db (StoreOp.opInsert now h mt md st src)).seq =
            db.seq + 1 := rfl
        have := seq_runOps_le ops (applyOp db (StoreOp.opInsert now h mt md st src))
        rw [hseq] at this
        exact this
      · have hrec := ih (applyOp db (StoreOp.opInsert now h mt md st src)) i hmem
        have hseq : (applyOp db (StoreOp.opInsert now h mt md st src)).seq =
            db.seq + 1 := rfl
        rw [hseq] at hrec
        exact ⟨by omega, hrec.2⟩
    | opCleanup c =>
      rw [assignedIds] at hi
      have hrec := ih (applyOp db (StoreOp.opCleanup c)) i hi
      have hseq : (applyOp db (StoreOp.opCleanup c)).seq = db.seq := rfl
      rw [hseq] at hrec
      exact hrec

theorem assignedIds_pairwise (ops : List StoreOp) :
    ∀ db : MetricsDatabase, List.Pairwise (· < ·) (assignedIds db ops) := by
  induction ops with
  | nil => intro db; simp [assignedIds]
  | cons op ops ih =>
    intro db
    cases op with
    | opInsert now h mt md st src =>
      rw [assignedIds]
      refine List.pairwise_cons.mpr ⟨?_, ih _⟩
      intro j hj
      have hb := (assignedIds_bounds ops
        (applyOp db (StoreOp.opInsert now h mt md st src)) j hj).1
      have hseq : (applyOp db (StoreOp.opInsert now h mt md st src)).seq =
          db.seq + 1 := rfl
      rw [hseq] at hb
      exact lt_of_le_of_lt (le_refl _) hb
    | opCleanup c =>
      rw [assignedIds]
      exact ih _

theorem cleanup_partition (db : MetricsDatabase) (cutoff : Timestamp) :
    (cleanup_old_records db cutoff).1.rows.length +
      (cleanup_old_records db cutoff).2 = db.rows.length := by
  simp only [cleanup_old_records, decide_not]
  exact length_filter_not_add (fun r => decide (r.timestamp < cutoff)) db.rows

theorem run_length_invariant (ops : List StoreOp) :
    ∀ db : MetricsDatabase,
      (runOps db ops).rows.length + cleanedTotal db ops =
        db.rows.length + insertCount ops := by
  induction ops with
  | nil => intro db; simp [runOps, cleanedTotal, insertCount]
  | cons op ops ih =>
    intro db
    cases op with
    | opInsert now h mt md st src =>
      have hrec := ih (applyOp db (StoreOp.opInsert now h mt md st src))
      have hrows : (applyOp db (StoreOp.opInsert now h mt md st src)).rows.length =
          db.rows.length + 1 := by
        simp [applyOp, insert_metrics]
      rw [hrows] at hrec
      simp only [runOps, cleanedTotal, insertCount]
      omega
    | opCleanup c =>
      have hrec := ih (applyOp db (StoreOp.opCleanup c))
      have hpart := cleanup_partition db c
      have hrows : (applyOp db (StoreOp.opCleanup c)).rows =
          (cleanup_old_records db c).1.rows := rfl
      simp only [runOps, cleanedTotal, insertCount]
      rw [hrows] at hrec
      omega

/-- C1: get_metrics_range returns exactly the stored records whose timestamp
lies in the inclusive interval between the bounds (and whose metric_type
equals the filter exactly when one is supplied), ordered ascending by
timestamp; an empty range, in particular one with start strictly after end,
yields the empty sequence rather than an error. -/
theorem get_metrics_range_spec (db : MetricsDatabase) (s e : Timestamp)
    (mt : Option String) :
    (get_metrics_range db s e mt).Perm
      (db.rows.filter (rangeMatches s e mt)) ∧
    (∀ r, r ∈ get_metrics_range db s e mt ↔
      r ∈ db.rows ∧ s ≤ r.timestamp ∧ r.timestamp ≤ e ∧
        ∀ t, mt = some t → r.metric_type = t) ∧
    List.Sorted rowLE (get_metrics_range db s e mt) ∧
    (e < s → get_metrics_range db s e mt = []) := by
  refine ⟨List.perm_insertionSort _ _, ?_, List.sorted_insertionSort _ _, ?_⟩
  · intro r
    rw [get_metrics_range,
      List.Perm.mem_iff (List.perm_insertionSort _ _), List.mem_filter]
    cases mt with
    | none => simp [rangeMatches, and_assoc]
    | some t0 => simp [rangeMatches, and_assoc]
  · intro hlt
    have hnil : db.rows.filter (rangeMatches s e mt) = [] := by
      refine List.filter_eq_nil_iff.mpr ?_
      intro r hr hmatch
      simp only [rangeMatches, Bool.and_eq_true, decide_eq_true_eq] at hmatch
      exact absurd (le_trans hmatch.1.1 hmatch.1.2) (not_le.mpr hlt)
    rw [get_metrics_range, hnil]
    rfl

/-- C1 witness: an inverted range (start 3, end 1) on a one-row store
yields the empty sequence. -/
theorem get_metrics_range_spec_witness :
    get_metrics_range
      (⟨[⟨1, 2, "h", "cpu", PVal.vNone, "OK", "python"⟩], 1⟩ :
        MetricsDatabase) 3 1 none = [] :=
  (get_metrics_range_spec
    (⟨[⟨1, 2, "h", "cpu", PVal.vNone, "OK", "python"⟩], 1⟩ :
      MetricsDatabase) 3 1 none).2.2.2 (by decide)

/-- C2: across every history of inserts and retention sweeps starting from a
fresh store, the ids handed out by insert are pairwise strictly increasing
in call order (hence pairwise distinct, never decreasing and never reused,
even after rows are deleted by a sweep), and one further insert returns an
id strictly greater than every previously assigned id. -/
theorem insert_ids_strictly_increasing (ops : List StoreOp) :
    List.Pairwise (· < ·) (assignedIds emptyDatabase ops) ∧
    (∀ (now : Timestamp) (h mt : String) (md : PVal) (st src : String),
      ∀ i ∈ assignedIds emptyDatabase ops,
        i < (insert_metrics (runOps emptyDatabase ops)
          now h mt md st src).2) := by
  constructor
  · exact assignedIds_pairwise ops emptyDatabase
  · intro now h mt md st src i hi
    have hb := (assignedIds_bounds ops emptyDatabase i hi).2
    have hid : (insert_metrics (runOps emptyDatabase ops)
        now h mt md st src).2 = (runOps emptyDatabase ops).seq + 1 := rfl
    omega

/-- C2 witness: after insert, sweep, insert (ids 1 and 2), a further insert
returns an id greater than the assigned id 2. -/
theorem insert_ids_strictly_increasing_witness :
    (2 : ℕ) < (insert_metrics
      (runOps emptyDatabase
        [StoreOp.opInsert 0 ("h") ("cpu") PVal.vNone ("OK") ("python"),
         StoreOp.opCleanup 5,
         StoreOp.opInsert 7 ("h") ("cpu") PVal.vNone ("OK") ("python")])
      9 ("h") ("cpu") PVal.vNone ("OK") ("python")).2 :=
  (insert_ids_strictly_increasing
    [StoreOp.opInsert 0 ("h") ("cpu") PVal.vNone ("OK") ("python"),
     StoreOp.opCleanup 5,
     StoreOp.opInsert 7 ("h") ("cpu") PVal.vNone ("OK") ("python")]).2
    9 ("h") ("cpu") PVal.vNone ("OK") ("python") 2 (by decide)

/-- C3: a retention sweep with a given cutoff keeps exactly the rows whose
timestamp is not strictly earlier than the cutoff, returns the number of
rows deleted (0, as a normal success, when none match), and after any
history of inserts and sweeps the stats total_records equals the number of
inserts minus the total of the counts returned by the sweeps. -/
theorem cleanup_and_stats_spec :
    (∀ (db : MetricsDatabase) (cutoff : Timestamp),
      (∀ r, r ∈ (cleanup_old_records db cutoff).1.rows ↔
        r ∈ db.rows ∧ ¬ r.timestamp < cutoff) ∧
      (cleanup_old_records db cutoff).1.rows.length +
        (cleanup_old_records db cutoff).2 = db.rows.length ∧
      (cleanup_old_records db cutoff).2 =
        (db.rows.filter (fun r => decide (r.timestamp < cutoff))).length ∧
      ((∀ r ∈ db.rows, cutoff ≤ r.timestamp) →
        (cleanup_old_records db cutoff).2 = 0)) ∧
    (∀ ops : List StoreOp,
      (get_database_stats (runOps emptyDatabase ops)).total_records +
        cleanedTotal emptyDatabase ops = insertCount ops ∧
      (get_database_stats (runOps emptyDatabase ops)).total_records =
        insertCount ops - cleanedTotal emptyDatabase ops) := by
  constructor
  · intro db cutoff
    refine ⟨?_, cleanup_partition db cutoff, rfl, ?_⟩
    · intro r
      simp [cleanup_old_records, List.mem_filter]
    · intro hall
      simp only [cleanup_old_records, List.length_eq_zero,
        List.filter_eq_nil_iff]
      intro r hr
      simp only [decide_eq_true_eq]
      exact not_lt.mpr (hall r hr)
  · intro ops
    have hinv := run_length_invariant ops emptyDatabase
    have hempty : emptyDatabase.rows.length = 0 := rfl
    have htot : (get_database_stats (runOps emptyDatabase ops)).total_records =
        (runOps emptyDatabase ops).rows.length := rfl
    constructor
    · rw [htot]; omega
    · rw [htot]; omega

/-- C3 witness: sweeping a one-row store whose row is newer than the cutoff
deletes nothing and returns 0. -/
theorem cleanup_and_stats_spec_witness :
    (cleanup_old_records
      (⟨[⟨1, 5, "h", "cpu", PVal.vNone, "OK", "python"⟩], 1⟩ :
        MetricsDatabase) 3).2 = 0 :=
  (cleanup_and_stats_spec.1
    (⟨[⟨1, 5, "h", "cpu", PVal.vNone, "OK", "python"⟩], 1⟩ :
      MetricsDatabase) 3).2.2.2 (by decide)
